import Mathlib

/-!
Verification of the time-series storage and derived-metrics engine of the
stock-data repository.

The embedding models:
* `app/models/currency.py` — `CurrencyDataProcessor` (parsing, metric
  calculation, response assembly); Python floats are modelled as `ℚ`,
  Python `None`-able floats as `Option ℚ`, and a raised `ValueError`
  as `none`.
* `app/database/models.py` + `app/database/repository.py` — the SQL store is
  modelled as a list of rows; the unique constraints
  `uq_currency_timestamp` and `uq_symbol_market` make conflicting inserts
  fail and roll back, which is modelled by returning the old store together
  with an error value.
* the TimescaleDB chunk lifecycle configured in
  `alembic/versions/a1ab1bdb31b1_…` (7-day chunks, 30-day compression,
  1-year retention), modelled from the spec where the source has no code.

Python semantics that matter below: `x if cond else None` with a float
`cond` treats `0.0` as falsy; `round(x, 2)` rounds half to even;
`str.sort`/`sorted` compare strings lexicographically by code point;
`str.upper()` upper-cases characters.
-/

/-- Lexicographic code-point comparison of character lists; models Python
string `<` restricted to the character data. -/
def pyCharsLt : List Char → List Char → Bool
  | [], [] => false
  | [], _ :: _ => true
  | _ :: _, [] => false
  | a :: as, b :: bs =>
    if a.toNat < b.toNat then true
    else if a.toNat = b.toNat then pyCharsLt as bs
    else false

/-- Python string `<`. -/
def pyStrLt (a b : String) : Bool := pyCharsLt a.data b.data

/-- Python string `<=` (total order: `a <= b ↔ ¬ b < a`). -/
def pyStrLe (a b : String) : Bool := !(pyStrLt b a)

/-- Python `str.upper()` (ASCII case mapping, which is all the source ever
feeds it). -/
def pyUpper (s : String) : String := ⟨s.data.map Char.toUpper⟩

theorem pyCharsLt_asymm : ∀ a b, pyCharsLt a b = true → pyCharsLt b a = false := by
  intro a
  induction a with
  | nil =>
    intro b h
    cases b with
    | nil => simp [pyCharsLt] at h
    | cons y ys => rfl
  | cons x xs ih =>
    intro b h
    cases b with
    | nil => simp [pyCharsLt] at h
    | cons y ys =>
      simp only [pyCharsLt] at h ⊢
      rcases Nat.lt_trichotomy x.toNat y.toNat with h1 | h1 | h1
      · rw [if_neg (by omega), if_neg (by omega)]
      · rw [if_neg (by omega), if_pos h1] at h
        rw [if_neg (by omega), if_pos h1.symm]
        exact ih ys h
      · rw [if_neg (by omega), if_neg (by omega)] at h
        simp at h

theorem pyCharsLt_connected : ∀ a b c, pyCharsLt a c = true →
    pyCharsLt a b = true ∨ pyCharsLt b c = true := by
  intro a
  induction a with
  | nil =>
    intro b c h
    cases c with
    | nil => simp [pyCharsLt] at h
    | cons z zs =>
      cases b with
      | nil => exact Or.inr h
      | cons y ys => exact Or.inl rfl
  | cons x xs ih =>
    intro b c h
    cases c with
    | nil => simp [pyCharsLt] at h
    | cons z zs =>
      cases b with
      | nil => exact Or.inr rfl
      | cons y ys =>
        simp only [pyCharsLt] at h ⊢
        rcases Nat.lt_trichotomy x.toNat y.toNat with h1 | h1 | h1
        · exact Or.inl (by rw [if_pos h1])
        · rcases Nat.lt_trichotomy y.toNat z.toNat with h2 | h2 | h2
          · exact Or.inr (by rw [if_pos h2])
          · rw [if_neg (by omega), if_pos (by omega)] at h
            rcases ih ys zs h with h4 | h4
            · exact Or.inl (by rw [if_neg (by omega), if_pos (by omega)]; exact h4)
            · exact Or.inr (by rw [if_neg (by omega), if_pos (by omega)]; exact h4)
          · rw [if_neg (by omega), if_neg (by omega)] at h
            simp at h
        · rcases Nat.lt_trichotomy y.toNat z.toNat with h2 | h2 | h2
          · exact Or.inr (by rw [if_pos h2])
          · rw [if_neg (by omega), if_neg (by omega)] at h
            simp at h
          · rw [if_neg (by omega), if_neg (by omega)] at h
            simp at h

theorem pyStrLe_total (a b : String) : pyStrLe a b = true ∨ pyStrLe b a = true := by
  unfold pyStrLe pyStrLt
  cases h : pyCharsLt b.data a.data with
  | false => exact Or.inl (by simp [h])
  | true => exact Or.inr (by simp [pyCharsLt_asymm _ _ h])

theorem pyStrLe_trans (a b c : String) (h1 : pyStrLe a b = true)
    (h2 : pyStrLe b c = true) : pyStrLe a c = true := by
  unfold pyStrLe pyStrLt at h1 h2 ⊢
  simp only [Bool.not_eq_true'] at h1 h2 ⊢
  cases h3 : pyCharsLt c.data a.data with
  | false => rfl
  | true =>
    rcases pyCharsLt_connected _ b.data _ h3 with h4 | h4
    · rw [h2] at h4; cases h4
    · rw [h1] at h4; cases h4

/-- Floor of a rational, written so that it evaluates by kernel reduction. -/
def ratFloor (q : ℚ) : ℤ := q.num.fdiv q.den

/-- Round a rational to the nearest integer, ties to even: the rounding mode
of Python `round`. -/
def roundHalfEven (q : ℚ) : ℤ :=
  if q - ratFloor q < 1/2 then ratFloor q
  else if 1/2 < q - ratFloor q then ratFloor q + 1
  else if ratFloor q % 2 = 0 then ratFloor q else ratFloor q + 1

/-- Python `round(x, 2)`. -/
def pyRound2 (q : ℚ) : ℚ := (roundHalfEven (q * 100) : ℚ) / 100

/-- Python `round(x, 2) if x else None` applied to a `None`-able float:
`None` and exact `0.0` are both falsy and give `None`. -/
def pyRoundOpt : Option ℚ → Option ℚ
  | none => none
  | some x => if x = 0 then none else some (pyRound2 x)

/-- Python `float(x) if x else None` applied to a `None`-able value (as in
`get_stats`): `None` and exact `0` are both falsy and give `None`. -/
def pyFloatOpt : Option ℚ → Option ℚ
  | none => none
  | some x => if x = 0 then none else some x

/-- Python `sum(l) / len(l) if l else None`. -/
def listAvg (l : List ℚ) : Option ℚ :=
  if l.isEmpty then none else some (l.sum / l.length)

/-- Python `max(l)` on a possibly-empty list (`None` when empty, matching
the guarded uses in the source). -/
def listMax : List ℚ → Option ℚ
  | [] => none
  | x :: xs => some (xs.foldl max x)

/-- Python `min(l)` on a possibly-empty list. -/
def listMin : List ℚ → Option ℚ
  | [] => none
  | x :: xs => some (xs.foldl min x)

/-! ## `app/models/currency.py` -/

/-- Model of `TimeSeriesData`: one parsed OHLCV point; `date` is the raw date string
key of the API response. -/
structure TimeSeriesData where
  date : String
  «open» : ℚ
  high : ℚ
  low : ℚ
  close : ℚ
  volume : ℚ
deriving DecidableEq, Inhabited, Repr

/-- Model of `CurrencyMetadata`: metadata block of the API response. -/
structure CurrencyMetadata where
  information : String
  digital_currency_code : String
  digital_currency_name : String
  market_code : String
  market_name : String
  last_refreshed : String
  time_zone : String
deriving DecidableEq, Inhabited, Repr

/-- Model of `CalculatedMetrics`: derived analytics; the `Optional[float]` fields of
the pydantic model become `Option ℚ`. -/
structure CalculatedMetrics where
  latest_price : ℚ
  latest_volume : ℚ
  latest_date : String
  daily_change : Option ℚ
  daily_change_percent : Option ℚ
  weekly_avg : Option ℚ
  weekly_high : Option ℚ
  weekly_low : Option ℚ
  monthly_avg : Option ℚ
  monthly_high : Option ℚ
  monthly_low : Option ℚ
deriving DecidableEq, Inhabited, Repr

/-- Model of `CurrencyResponse`: the assembled response record. -/
structure CurrencyResponse where
  metadata : CurrencyMetadata
  metrics : CalculatedMetrics
  recent_data : List TimeSeriesData
deriving DecidableEq, Inhabited, Repr

/-- One value object of the raw time-series dict; `values.get(key, 0)`
defaults are applied at parse time, so each field is optional here. -/
structure RawValues where
  open? : Option ℚ
  high? : Option ℚ
  low? : Option ℚ
  close? : Option ℚ
  volume? : Option ℚ
deriving DecidableEq, Inhabited, Repr

/-- The raw metadata dict; `raw_metadata.get(key, "")` defaults are applied
at parse time. -/
structure RawMetadata where
  information? : Option String
  digital_currency_code? : Option String
  digital_currency_name? : Option String
  market_code? : Option String
  market_name? : Option String
  last_refreshed? : Option String
  time_zone? : Option String
deriving DecidableEq, Inhabited, Repr

/-- A raw AlphaVantage response: the "Meta Data" object and the
"Time Series (Digital Currency Daily)" dict, the latter as an association
list keyed by date string (`raw_data.get(key, {})` defaults folded in). -/
structure RawResponse where
  metaData : RawMetadata
  timeSeries : List (String × RawValues)
deriving DecidableEq, Inhabited, Repr

/-- Model of `CurrencyDataProcessor.parse_metadata`. -/
def CurrencyDataProcessor.parse_metadata (raw_metadata : RawMetadata) : CurrencyMetadata :=
  { information := raw_metadata.information?.getD ""
    digital_currency_code := raw_metadata.digital_currency_code?.getD ""
    digital_currency_name := raw_metadata.digital_currency_name?.getD ""
    market_code := raw_metadata.market_code?.getD ""
    market_name := raw_metadata.market_name?.getD ""
    last_refreshed := raw_metadata.last_refreshed?.getD ""
    time_zone := raw_metadata.time_zone?.getD "" }

/-- The descending-by-date ordering used by
`series_data.sort(key=lambda x: x.date, reverse=True)`. -/
def dateDesc : TimeSeriesData → TimeSeriesData → Prop :=
  fun a b => pyStrLe b.date a.date = true

instance : DecidableRel dateDesc :=
  fun a b => inferInstanceAs (Decidable (pyStrLe b.date a.date = true))

instance : IsTotal TimeSeriesData dateDesc :=
  ⟨fun a b => pyStrLe_total b.date a.date⟩

instance : IsTrans TimeSeriesData dateDesc :=
  ⟨fun _ _ _ h1 h2 => pyStrLe_trans _ _ _ h2 h1⟩

/-- Model of `CurrencyDataProcessor.parse_time_series`: build one `TimeSeriesData`
per dict entry (missing values default to 0), then sort descending by
date string. The `market_code` argument is accepted and unused, as in the
source. -/
def CurrencyDataProcessor.parse_time_series
    (raw_time_series : List (String × RawValues)) (_market_code : String) :
    List TimeSeriesData :=
  let series_data := raw_time_series.map fun e =>
    { date := e.1
      «open» := e.2.open?.getD 0
      high := e.2.high?.getD 0
      low := e.2.low?.getD 0
      close := e.2.close?.getD 0
      volume := e.2.volume?.getD 0 : TimeSeriesData }
  series_data.insertionSort dateDesc

/-- Model of `CurrencyDataProcessor.calculate_metrics`; the `ValueError` raised on an
empty series is modelled as `none`. -/
def CurrencyDataProcessor.calculate_metrics :
    List TimeSeriesData → Option CalculatedMetrics
  | [] => none
  | latest :: rest =>
    let time_series := latest :: rest
    let daily_change : Option ℚ :=
      match rest with
      | [] => none
      | previous :: _ => some (latest.close - previous.close)
    let daily_change_percent : Option ℚ :=
      match rest with
      | [] => none
      | previous :: _ =>
        if previous.close = 0 then none
        else some ((latest.close - previous.close) / previous.close * 100)
    let weekly_data := time_series.take 7
    let monthly_data := time_series.take 30
    some
      { latest_price := latest.close
        latest_volume := latest.volume
        latest_date := latest.date
        daily_change := pyRoundOpt daily_change
        daily_change_percent := pyRoundOpt daily_change_percent
        weekly_avg := pyRoundOpt (listAvg (weekly_data.map (·.close)))
        weekly_high := pyRoundOpt (listMax (weekly_data.map (·.high)))
        weekly_low := pyRoundOpt (listMin (weekly_data.map (·.low)))
        monthly_avg := pyRoundOpt (listAvg (monthly_data.map (·.close)))
        monthly_high := pyRoundOpt (listMax (monthly_data.map (·.high)))
        monthly_low := pyRoundOpt (listMin (monthly_data.map (·.low))) }

/-- Model of `CurrencyDataProcessor.process_response`: parse metadata and series,
compute metrics, keep only the 10 most recent points. `none` models the
`ValueError` escaping from `calculate_metrics` on an empty series. -/
def CurrencyDataProcessor.process_response (raw_data : RawResponse) :
    Option CurrencyResponse :=
  let metadata := CurrencyDataProcessor.parse_metadata raw_data.metaData
  let time_series :=
    CurrencyDataProcessor.parse_time_series raw_data.timeSeries metadata.market_code
  (CurrencyDataProcessor.calculate_metrics time_series).map fun metrics =>
    { metadata := metadata
      metrics := metrics
      recent_data := time_series.take 10 }

/-! ## `app/database/models.py` and `app/database/repository.py`

The durable store is modelled as a list of rows. The autoincrement `id`
and `created_at` columns carry no semantics used by any claim and are
omitted. The unique constraint `uq_currency_timestamp` on
`(currency_id, timestamp)` means an INSERT of a conflicting row raises
`IntegrityError` before the transaction commits; a failed operation is
modelled as returning the unchanged store together with an error value. -/

/-- One row of `crypto_prices` (timestamps as integers, as `datetime` is a
totally ordered scalar here). -/
structure PriceRow where
  currency_id : ℕ
  timestamp : ℤ
  «open» : ℚ
  high : ℚ
  low : ℚ
  close : ℚ
  volume : ℚ
deriving DecidableEq, Inhabited, Repr

/-- Database-level failures surfaced by the store. `duplicateKey` is the
`IntegrityError` from a unique-constraint violation; the spec names it
`DuplicateKey`. `historicalWriteRejected` is the spec's
`HistoricalWriteRejected`. -/
inductive DBError where
  | duplicateKey
  | historicalWriteRejected
deriving DecidableEq, Repr

/-- The schema invariant enforced by `uq_currency_timestamp`: no two rows
share a `(currency_id, timestamp)` key. -/
def store_wf (s : List PriceRow) : Prop :=
  List.Pairwise (fun x y => ¬(x.currency_id = y.currency_id ∧ x.timestamp = y.timestamp)) s

/-- Whether the store already holds a row with the given unique key. -/
def hasKey (s : List PriceRow) (cid : ℕ) (ts : ℤ) : Bool :=
  s.any fun r => decide (r.currency_id = cid ∧ r.timestamp = ts)

/-- Model of `CryptoPriceRepository.create`: INSERT one row and commit. A conflict
with `uq_currency_timestamp` aborts the transaction: the store is unchanged
and the duplicate-key error surfaces. -/
def CryptoPriceRepository.create (s : List PriceRow) (currency_id : ℕ)
    (timestamp : ℤ) («open» high low close volume : ℚ) :
    List PriceRow × Except DBError PriceRow :=
  let price : PriceRow :=
    { currency_id := currency_id, timestamp := timestamp, «open» := «open»,
      high := high, low := low, close := close, volume := volume }
  if hasKey s currency_id timestamp then (s, .error .duplicateKey)
  else (s ++ [price], .ok price)

/-- Sequential insertion of the batch rows inside one transaction; the
first unique-key conflict aborts the whole transaction. -/
def insertAll : List PriceRow → List PriceRow → Except DBError (List PriceRow)
  | s, [] => .ok s
  | s, r :: rs =>
    if hasKey s r.currency_id r.timestamp then .error .duplicateKey
    else insertAll (s ++ [r]) rs

/-- Model of `CryptoPriceRepository.bulk_create`: `bulk_save_objects` + `commit` in a
single transaction, returning `len(price_objects)` on success. A constraint
violation on any row aborts the transaction before the commit, so either
every row becomes visible or none does. -/
def CryptoPriceRepository.bulk_create (s : List PriceRow)
    (price_records : List PriceRow) : List PriceRow × Except DBError ℕ :=
  if price_records.isEmpty then (s, .ok 0)
  else
    match insertAll s price_records with
    | .ok s2 => (s2, .ok price_records.length)
    | .error e => (s, .error e)

/-- The ascending-timestamp ordering of `order_by(CryptoPrice.timestamp)`. -/
def tsAsc : PriceRow → PriceRow → Prop := fun x y => x.timestamp ≤ y.timestamp

instance : DecidableRel tsAsc :=
  fun x y => inferInstanceAs (Decidable (x.timestamp ≤ y.timestamp))

instance : IsTotal PriceRow tsAsc := ⟨fun x y => le_total x.timestamp y.timestamp⟩

instance : IsTrans PriceRow tsAsc := ⟨fun _ _ _ h1 h2 => le_trans h1 h2⟩

/-- The WHERE clause of the date-range queries: same instrument and
`start_date <= timestamp <= end_date`, both bounds inclusive. -/
def inRange (currency_id : ℕ) (start_date end_date : ℤ) (r : PriceRow) : Bool :=
  decide (r.currency_id = currency_id ∧
    start_date ≤ r.timestamp ∧ r.timestamp ≤ end_date)

/-- Model of `CryptoPriceRepository.get_by_date_range`: filter by instrument and
inclusive window, ordered ascending by timestamp. -/
def CryptoPriceRepository.get_by_date_range (s : List PriceRow)
    (currency_id : ℕ) (start_date end_date : ℤ) : List PriceRow :=
  (s.filter (inRange currency_id start_date end_date)).insertionSort tsAsc

/-- The aggregate row returned by `get_stats` after the Python
falsy-to-`None` coercion of each numeric field. -/
structure StatsResult where
  avg_price : Option ℚ
  max_price : Option ℚ
  min_price : Option ℚ
  avg_volume : Option ℚ
  count : ℕ
deriving DecidableEq, Inhabited, Repr

/-- Model of `CryptoPriceRepository.get_stats`: server-side `avg/max/min/avg/count`
over the inclusive window (SQL aggregates over an empty set are NULL, and
`count` is 0), then each numeric field passes through
`float(x) if x else None`. -/
def CryptoPriceRepository.get_stats (s : List PriceRow) (currency_id : ℕ)
    (start_date end_date : ℤ) : StatsResult :=
  let m := s.filter (inRange currency_id start_date end_date)
  { avg_price := pyFloatOpt (listAvg (m.map (·.close)))
    max_price := pyFloatOpt (listMax (m.map (·.high)))
    min_price := pyFloatOpt (listMin (m.map (·.low)))
    avg_volume := pyFloatOpt (listAvg (m.map (·.volume)))
    count := m.length }

/-- One row of `crypto_currencies`; `created_at`/`updated_at` carry no
semantics used by any claim and are omitted. -/
structure CurrencyRow where
  id : ℕ
  symbol : String
  name : String
  market : String
  is_active : Bool
deriving DecidableEq, Inhabited, Repr

/-- The autoincrement primary key: one more than the largest id in use. -/
def next_id (db : List CurrencyRow) : ℕ :=
  (db.foldl (fun m r => max m r.id) 0) + 1

/-- Model of `CryptoCurrencyRepository.get_by_symbol_and_market`: the lookup
upper-cases both inputs before comparing; `.first()` takes the first
matching row. -/
def CryptoCurrencyRepository.get_by_symbol_and_market (db : List CurrencyRow)
    (symbol market : String) : Option CurrencyRow :=
  db.find? fun c => decide (c.symbol = pyUpper symbol ∧ c.market = pyUpper market)

/-- Model of `CryptoCurrencyRepository.create`: INSERT a row with upper-cased symbol
and market, then commit. -/
def CryptoCurrencyRepository.create (db : List CurrencyRow)
    (symbol name market : String) (is_active : Bool) :
    List CurrencyRow × CurrencyRow :=
  let currency : CurrencyRow :=
    { id := next_id db, symbol := pyUpper symbol, name := name,
      market := pyUpper market, is_active := is_active }
  (db ++ [currency], currency)

/-- Model of `CryptoCurrencyRepository.get_or_create`. -/
def CryptoCurrencyRepository.get_or_create (db : List CurrencyRow)
    (symbol name market : String) : List CurrencyRow × CurrencyRow :=
  match CryptoCurrencyRepository.get_by_symbol_and_market db symbol market with
  | some currency => (db, currency)
  | none => CryptoCurrencyRepository.create db symbol name market true

/-! ## Chunk lifecycle (TimescaleDB policies of migration `a1ab1bdb31b1`)

The migration declares: 7-day chunks on `timestamp`, compression of chunks
older than 30 days, retention (drop) of chunks older than 1 year. The
runtime behaviour of these policies lives inside the TimescaleDB engine,
not in this repository's code, so it is modelled from the spec. -/

/-- Modelled from the spec: chunk assignment is a pure function of the
timestamp with a fixed 7-day interval; this is the exclusive upper time
boundary of the chunk containing `ts` (time measured in days). -/
def chunkUpperBound (ts : ℤ) : ℤ := (ts.fdiv 7 + 1) * 7

/-- Modelled from the spec: a chunk is retired once its upper boundary is
older than the 365-day retention horizon. -/
def chunkRetired (now ts : ℤ) : Bool := decide (now - chunkUpperBound ts > 365)

/-- Modelled from the spec: a chunk is compressed once its upper boundary is
older than the 30-day compression threshold. -/
def chunkCompressed (now ts : ℤ) : Bool := decide (now - chunkUpperBound ts > 30)

/-- Modelled from the spec: an append into a retired chunk fails with
`HistoricalWriteRejected` and leaves the store unchanged; otherwise the
write goes through `CryptoPriceRepository.create` unchanged (compression
does not affect insert eligibility). The repository's `create` contains no
such check; this composition is the spec's §4.3 semantics. -/
def append_with_lifecycle (now : ℤ) (s : List PriceRow) (currency_id : ℕ)
    (timestamp : ℤ) («open» high low close volume : ℚ) :
    List PriceRow × Except DBError PriceRow :=
  if chunkRetired now timestamp then (s, .error .historicalWriteRejected)
  else CryptoPriceRepository.create s currency_id timestamp «open» high low close volume

/-! ## `scripts/seed_database.py` -/

/-- The price-record batch built by `fetch_and_store_crypto_data` from a
processed response: one row per `recent_data` point;
`datetime.fromisoformat` is abstracted as an arbitrary injective decoding
`decode` of date strings to timestamps. -/
def seed_price_records (currency_id : ℕ) (decode : String → ℤ)
    (resp : CurrencyResponse) : List PriceRow :=
  resp.recent_data.map fun d =>
    { currency_id := currency_id, timestamp := decode d.date, «open» := d.«open»,
      high := d.high, low := d.low, close := d.close, volume := d.volume }

/-! ## Helper lemmas about the store -/

theorem hasKey_of_mem (s : List PriceRow) (p : PriceRow) (cid : ℕ) (ts : ℤ)
    (hm : p ∈ s) (h1 : p.currency_id = cid) (h2 : p.timestamp = ts) :
    hasKey s cid ts = true := by
  unfold hasKey
  rw [List.any_eq_true]
  exact ⟨p, hm, by simp [h1, h2]⟩

theorem hasKey_append (s t : List PriceRow) (cid : ℕ) (ts : ℤ) :
    hasKey (s ++ t) cid ts = (hasKey s cid ts || hasKey t cid ts) := by
  unfold hasKey
  exact List.any_append

theorem insertAll_ok_eq : ∀ (recs s s2 : List PriceRow),
    insertAll s recs = .ok s2 → s2 = s ++ recs := by
  intro recs
  induction recs with
  | nil =>
    intro s s2 h
    unfold insertAll at h
    cases h
    simp
  | cons r rs ih =>
    intro s s2 h
    unfold insertAll at h
    split at h
    · cases h
    · rw [ih (s ++ [r]) s2 h, List.append_assoc, List.singleton_append]

theorem insertAll_conflict : ∀ (recs s : List PriceRow) (r : PriceRow),
    r ∈ recs → hasKey s r.currency_id r.timestamp = true →
    insertAll s recs = .error .duplicateKey := by
  intro recs
  induction recs with
  | nil => intro s r hm; cases hm
  | cons x xs ih =>
    intro s r hm hk
    unfold insertAll
    by_cases hx : hasKey s x.currency_id x.timestamp = true
    · rw [if_pos hx]
    · rw [if_neg hx]
      rcases List.mem_cons.mp hm with heq | hm2
      · exact absurd (heq ▸ hk) hx
      · exact ih (s ++ [x]) r hm2 (by rw [hasKey_append, hk, Bool.true_or])

/-! ## Claims C2, C4, C5 -/

/-- C2: on every successful batch, `bulk_create` returns exactly the number
of records actually inserted (the store grows by that amount); any
uniqueness violation rejects the whole batch: the error surfaces and the
store is unchanged, so the batch is never corrupted. -/
theorem bulk_create_spec :
    (∀ (s recs s2 : List PriceRow) (n : ℕ),
        CryptoPriceRepository.bulk_create s recs = (s2, .ok n) →
        n = recs.length ∧ s2 = s ++ recs ∧ s2.length = s.length + n) ∧
    (∀ (s recs s2 : List PriceRow) (e : DBError),
        CryptoPriceRepository.bulk_create s recs = (s2, .error e) → s2 = s) ∧
    (∀ (s recs : List PriceRow) (r : PriceRow), r ∈ recs →
        hasKey s r.currency_id r.timestamp = true →
        CryptoPriceRepository.bulk_create s recs = (s, .error .duplicateKey)) := by
  refine ⟨?_, ?_, ?_⟩
  · intro s recs s2 n h
    unfold CryptoPriceRepository.bulk_create at h
    split at h
    · next hemp =>
      rw [List.isEmpty_iff] at hemp
      subst hemp
      simp only [Prod.mk.injEq, Except.ok.injEq] at h
      obtain ⟨h1, h2⟩ := h
      simp [← h1, ← h2]
    · next hemp =>
      cases heq : insertAll s recs with
      | ok s3 =>
        rw [heq] at h
        simp only [Prod.mk.injEq, Except.ok.injEq] at h
        obtain ⟨h1, h2⟩ := h
        have h3 := insertAll_ok_eq recs s s3 heq
        subst h1 h2 h3
        simp
      | error e =>
        rw [heq] at h
        simp at h
  · intro s recs s2 e h
    unfold CryptoPriceRepository.bulk_create at h
    split at h
    · simp at h
    · cases heq : insertAll s recs with
      | ok s3 => rw [heq] at h; simp at h
      | error e2 =>
        rw [heq] at h
        simp only [Prod.mk.injEq] at h
        exact h.1.symm
  · intro s recs r hm hk
    unfold CryptoPriceRepository.bulk_create
    have hne : recs.isEmpty = false := by
      cases recs with
      | nil => cases hm
      | cons a l => rfl
    rw [hne]
    simp only [Bool.false_eq_true, if_false]
    rw [insertAll_conflict recs s r hm hk]

/-- Example row for the C2 witness. -/
def w2row : PriceRow := ⟨1, 5, 1, 2, 3, 4, 5⟩

theorem bulk_create_spec_witness :
    (1 = [w2row].length ∧ [w2row] = [] ++ [w2row] ∧
      [w2row].length = List.length ([] : List PriceRow) + 1) ∧
    CryptoPriceRepository.bulk_create [w2row] [w2row] = ([w2row], .error .duplicateKey) :=
  ⟨bulk_create_spec.1 [] [w2row] [w2row] 1 rfl,
   bulk_create_spec.2.2 [w2row] [w2row] w2row (List.mem_cons_self w2row []) (by decide)⟩

/-- C4: appending a point whose `(currency_id, timestamp)` key is already
present fails with the duplicate-key error and leaves the store — hence
the previously stored point — unchanged; there is no silent upsert. -/
theorem append_duplicate_rejected :
    ∀ (s : List PriceRow) (p : PriceRow) (cid : ℕ) (ts : ℤ) (o2 h2 l2 c2 v2 : ℚ),
      p ∈ s → p.currency_id = cid → p.timestamp = ts →
      CryptoPriceRepository.create s cid ts o2 h2 l2 c2 v2 = (s, .error .duplicateKey) := by
  intro s p cid ts o2 h2 l2 c2 v2 hm hc ht
  unfold CryptoPriceRepository.create
  rw [hasKey_of_mem s p cid ts hm hc ht]
  simp

/-- Example row for the C4 witness. -/
def w4row : PriceRow := ⟨2, 7, 10, 20, 5, 15, 100⟩

theorem append_duplicate_rejected_witness :
    CryptoPriceRepository.create [w4row] 2 7 11 21 6 16 101 =
      ([w4row], .error .duplicateKey) :=
  append_duplicate_rejected [w4row] w4row 2 7 11 21 6 16 101
    (List.mem_cons_self w4row []) rfl rfl

/-- C5: a point whose chunk is retired (past the 365-day retention horizon)
is rejected with `HistoricalWriteRejected` and the store is unchanged; a
point whose chunk is merely compressed (older than 30 days but within
retention) is still appended successfully. -/
theorem append_retired_chunk_rejected :
    (∀ (now : ℤ) (s : List PriceRow) (cid : ℕ) (ts : ℤ) (o2 h2 l2 c2 v2 : ℚ),
        chunkRetired now ts = true →
        append_with_lifecycle now s cid ts o2 h2 l2 c2 v2 =
          (s, .error .historicalWriteRejected)) ∧
    (∀ (now : ℤ) (s : List PriceRow) (cid : ℕ) (ts : ℤ) (o2 h2 l2 c2 v2 : ℚ),
        chunkCompressed now ts = true → chunkRetired now ts = false →
        hasKey s cid ts = false →
        append_with_lifecycle now s cid ts o2 h2 l2 c2 v2 =
          (s ++ [⟨cid, ts, o2, h2, l2, c2, v2⟩], .ok ⟨cid, ts, o2, h2, l2, c2, v2⟩)) := by
  constructor
  · intro now s cid ts o2 h2 l2 c2 v2 hr
    unfold append_with_lifecycle
    rw [hr]
    simp
  · intro now s cid ts o2 h2 l2 c2 v2 _ hr hk
    unfold append_with_lifecycle CryptoPriceRepository.create
    rw [hr, hk]
    simp

theorem append_retired_chunk_rejected_witness :
    chunkRetired 400 0 = true ∧ chunkCompressed 50 0 = true ∧
    chunkRetired 50 0 = false ∧
    append_with_lifecycle 400 [] 3 0 1 2 3 4 5 =
      ([], .error .historicalWriteRejected) ∧
    append_with_lifecycle 50 [] 3 0 1 2 3 4 5 =
      ([⟨3, 0, 1, 2, 3, 4, 5⟩], .ok ⟨3, 0, 1, 2, 3, 4, 5⟩) :=
  ⟨by decide, by decide, by decide,
   append_retired_chunk_rejected.1 400 [] 3 0 1 2 3 4 5 (by decide),
   append_retired_chunk_rejected.2 50 [] 3 0 1 2 3 4 5 (by decide) (by decide) (by decide)⟩

/-! ## Claims C3 and C9 (window statistics) -/

/-- C3 (amended): over an empty window `get_stats` returns count 0 and null
aggregates without dividing by zero; over a window of exactly one point
whose close is nonzero, `avg_price` is that point's close. (The nonzero
side condition is forced by the `float(x) if x else None` coercion, which
also nulls an exact-zero aggregate — see the counterexample.) -/
theorem stats_empty_and_single_window :
    (∀ (s : List PriceRow) (cid : ℕ) (a b : ℤ),
        s.filter (inRange cid a b) = [] →
        CryptoPriceRepository.get_stats s cid a b =
          { avg_price := none, max_price := none, min_price := none,
            avg_volume := none, count := 0 }) ∧
    (∀ (s : List PriceRow) (cid : ℕ) (a b : ℤ) (p : PriceRow),
        s.filter (inRange cid a b) = [p] → p.close ≠ 0 →
        (CryptoPriceRepository.get_stats s cid a b).avg_price = some p.close ∧
        (CryptoPriceRepository.get_stats s cid a b).count = 1) := by
  constructor
  · intro s cid a b h
    unfold CryptoPriceRepository.get_stats
    rw [h]
    simp [listAvg, listMax, listMin, pyFloatOpt]
  · intro s cid a b p h hp
    unfold CryptoPriceRepository.get_stats
    rw [h]
    refine ⟨?_, rfl⟩
    simp [listAvg, pyFloatOpt, hp]

/-- Example row (zero close) for the C3 counterexample. -/
def c3row : PriceRow := ⟨1, 0, 1, 2, 3, 0, 5⟩

/-- C3 counterexample: a window holding exactly one point whose close is 0
yields `avg_price = None` (with count 1), not `avg_price = 0`: the claim
"over a window of exactly one point, avg_close equals that point's close"
fails at close = 0 because a falsy aggregate is coerced to `None`. -/
theorem stats_single_zero_close_cex :
    List.filter (inRange 1 0 0) [c3row] = [c3row] ∧
    c3row.close = 0 ∧
    (CryptoPriceRepository.get_stats [c3row] 1 0 0).count = 1 ∧
    (CryptoPriceRepository.get_stats [c3row] 1 0 0).avg_price ≠ some c3row.close := by
  refine ⟨by decide, rfl, by decide, ?_⟩
  have hfil : List.filter (inRange 1 0 0) [c3row] = [c3row] := by decide
  unfold CryptoPriceRepository.get_stats
  rw [hfil]
  simp [listAvg, pyFloatOpt, c3row]

/-- Example row (nonzero close) for the C3 witness. -/
def w3row : PriceRow := ⟨5, 0, 1, 2, 3, 4, 5⟩

theorem stats_empty_and_single_window_witness :
    CryptoPriceRepository.get_stats [w3row] 9 0 0 =
      { avg_price := none, max_price := none, min_price := none,
        avg_volume := none, count := 0 } ∧
    ((CryptoPriceRepository.get_stats [w3row] 5 0 0).avg_price = some w3row.close ∧
      (CryptoPriceRepository.get_stats [w3row] 5 0 0).count = 1) :=
  ⟨stats_empty_and_single_window.1 [w3row] 9 0 0 (by decide),
   stats_empty_and_single_window.2 [w3row] 5 0 0 w3row (by decide) (by decide)⟩

/-- C9: a nonempty window whose points all carry volume 0 reports
`avg_volume = None` with a positive count, so a null aggregate does not
imply an empty window: each aggregate is nulled whenever its value is
falsy (equal to 0). -/
theorem stats_null_volume_not_empty :
    ∀ (s : List PriceRow) (cid : ℕ) (a b : ℤ),
      s.filter (inRange cid a b) ≠ [] →
      (∀ r ∈ s.filter (inRange cid a b), r.volume = 0) →
      (CryptoPriceRepository.get_stats s cid a b).avg_volume = none ∧
      0 < (CryptoPriceRepository.get_stats s cid a b).count := by
  intro s cid a b hne hv
  unfold CryptoPriceRepository.get_stats
  constructor
  · have hsum : ((s.filter (inRange cid a b)).map (·.volume)).sum = 0 := by
      refine List.sum_eq_zero ?_
      intro x hx
      rcases List.mem_map.mp hx with ⟨r, hr, rfl⟩
      exact hv r hr
    have hisem : ((s.filter (inRange cid a b)).map (·.volume)).isEmpty = false := by
      cases hfe : s.filter (inRange cid a b) with
      | nil => exact absurd hfe hne
      | cons x xs => rfl
    simp [listAvg, hisem, hsum, pyFloatOpt]
  · exact List.length_pos.mpr hne

/-- Example row (zero volume) for the C9 witness. -/
def w9row : PriceRow := ⟨4, 0, 1, 2, 3, 4, 0⟩

theorem stats_null_volume_not_empty_witness :
    (CryptoPriceRepository.get_stats [w9row] 4 0 0).avg_volume = none ∧
    0 < (CryptoPriceRepository.get_stats [w9row] 4 0 0).count :=
  stats_null_volume_not_empty [w9row] 4 0 0 (by decide) (by decide)

/-! ## Claim C7 (instrument registry) -/

/-- C7: `get_or_create` upper-cases the pair before lookup and storage, and
a second call with the same pair in any letter case returns the same row
from the same registry state (no duplicate row is created). -/
theorem get_or_create_idempotent :
    ∀ (db db1 db2 : List CurrencyRow) (s1 n1 m1 s2 n2 m2 : String)
      (c1 c2 : CurrencyRow),
      pyUpper s1 = pyUpper s2 → pyUpper m1 = pyUpper m2 →
      CryptoCurrencyRepository.get_or_create db s1 n1 m1 = (db1, c1) →
      CryptoCurrencyRepository.get_or_create db1 s2 n2 m2 = (db2, c2) →
      c2 = c1 ∧ db2 = db1 ∧ c1.symbol = pyUpper s1 ∧ c1.market = pyUpper m1 := by
  intro db db1 db2 s1 n1 m1 s2 n2 m2 c1 c2 hs hm h1 h2
  unfold CryptoCurrencyRepository.get_or_create
    CryptoCurrencyRepository.get_by_symbol_and_market at h1 h2
  rw [← hs, ← hm] at h2
  cases hf : db.find? (fun c => decide (c.symbol = pyUpper s1 ∧ c.market = pyUpper m1)) with
  | some c =>
    rw [hf] at h1
    simp only [Prod.mk.injEq] at h1
    obtain ⟨hdb1, hc1⟩ := h1
    subst hdb1
    rw [hf] at h2
    simp only [Prod.mk.injEq] at h2
    obtain ⟨hdb2, hc2⟩ := h2
    have hpred := List.find?_some hf
    rw [decide_eq_true_iff] at hpred
    exact ⟨hc2.symm.trans hc1, hdb2.symm, hc1 ▸ hpred.1, hc1 ▸ hpred.2⟩
  | none =>
    rw [hf] at h1
    unfold CryptoCurrencyRepository.create at h1
    simp only [Prod.mk.injEq] at h1
    obtain ⟨hdb1, hc1⟩ := h1
    subst hdb1
    rw [List.find?_append, hf] at h2
    simp only [Option.none_or] at h2
    rw [List.find?_cons_of_pos _ (by simp)] at h2
    simp only [Prod.mk.injEq] at h2
    obtain ⟨hdb2, hc2⟩ := h2
    exact ⟨hc2.symm.trans hc1, hdb2.symm, hc1 ▸ rfl, hc1 ▸ rfl⟩

/-- Example registry row for the C7 witness. -/
def w7cur : CurrencyRow := ⟨1, "BTC", "Bitcoin", "USD", true⟩

theorem get_or_create_idempotent_witness :
    w7cur = w7cur ∧ ([w7cur] : List CurrencyRow) = [w7cur] ∧
    w7cur.symbol = pyUpper "btc" ∧ w7cur.market = pyUpper "usd" :=
  get_or_create_idempotent [] [w7cur] [w7cur] "btc" "Bitcoin" "usd" "BTC" "ignored" "USD"
    w7cur w7cur (by decide) (by decide) (by decide) (by decide)

/-! ## Claims C1 and C8 (metrics engine) -/

theorem ratFloor_intCast (n : ℤ) : ratFloor (n : ℚ) = n := by
  unfold ratFloor
  rw [Rat.intCast_num, Rat.intCast_den]
  exact Int.fdiv_one n

theorem roundHalfEven_intCast (n : ℤ) : roundHalfEven (n : ℚ) = n := by
  unfold roundHalfEven
  rw [ratFloor_intCast, sub_self]
  norm_num

theorem pyRound2_intCast (n : ℤ) : pyRound2 (n : ℚ) = n := by
  unfold pyRound2
  have h1 : (n : ℚ) * 100 = ((n * 100 : ℤ) : ℚ) := by push_cast; ring
  rw [h1, roundHalfEven_intCast]
  push_cast
  field_simp

/-- C1 (amended): for a series of at least two points, `daily_change` is
`latest.close − previous.close` rounded at reporting and is present exactly
when that difference is nonzero (an exact-zero change is reported as
absent, because `0.0` is falsy); `daily_change_percent` is
`daily_change / previous.close × 100` and is absent exactly when
`previous.close = 0` or the change is 0. For a one-point series both are
absent. -/
theorem daily_change_reporting :
    (∀ (a b : TimeSeriesData) (rest : List TimeSeriesData) (m : CalculatedMetrics),
        CurrencyDataProcessor.calculate_metrics (a :: b :: rest) = some m →
        m.daily_change =
          (if a.close - b.close = 0 then none else some (pyRound2 (a.close - b.close))) ∧
        m.daily_change_percent =
          (if b.close = 0 ∨ a.close - b.close = 0 then none
           else some (pyRound2 ((a.close - b.close) / b.close * 100)))) ∧
    (∀ (a : TimeSeriesData) (m : CalculatedMetrics),
        CurrencyDataProcessor.calculate_metrics [a] = some m →
        m.daily_change = none ∧ m.daily_change_percent = none) := by
  constructor
  · intro a b rest m h
    unfold CurrencyDataProcessor.calculate_metrics at h
    rw [Option.some.injEq] at h
    subst h
    constructor
    · rfl
    · show pyRoundOpt (if b.close = 0 then none
          else some ((a.close - b.close) / b.close * 100)) = _
      by_cases hb : b.close = 0
      · simp [pyRoundOpt, hb]
      · have hiff : (a.close - b.close) / b.close * 100 = 0 ↔ a.close - b.close = 0 := by
          constructor
          · intro h0
            rcases mul_eq_zero.mp h0 with h3 | h3
            · exact (div_eq_zero_iff.mp h3).resolve_right hb
            · norm_num at h3
          · intro h0
            rw [h0]
            simp
        by_cases hd : a.close - b.close = 0
        · simp [pyRoundOpt, hb, hd, hiff.mpr hd]
        · have hp : ¬((a.close - b.close) / b.close * 100 = 0) := fun hc => hd (hiff.mp hc)
          simp [pyRoundOpt, hb, hd, hp]
  · intro a m h
    unfold CurrencyDataProcessor.calculate_metrics at h
    rw [Option.some.injEq] at h
    subst h
    exact ⟨rfl, rfl⟩

/-- Example points (equal closes) for the C1 counterexample. -/
def c1a : TimeSeriesData := ⟨"2025-01-02", 1, 1, 1, 100, 5⟩

/-- Second example point for the C1 counterexample. -/
def c1b : TimeSeriesData := ⟨"2025-01-01", 1, 1, 1, 100, 5⟩

/-- C1 counterexample: on a two-point series whose closes are equal the code
reports `daily_change = None` (and `daily_change_percent = None` although
`previous.close = 100 ≠ 0`), while the claim requires `daily_change` to be
present (0.00) for every series of at least two points and the percent to be
absent only when `previous.close == 0`. -/
theorem daily_change_zero_dropped_cex :
    (CurrencyDataProcessor.calculate_metrics [c1a, c1b]).map (·.daily_change) =
      some none ∧
    (CurrencyDataProcessor.calculate_metrics [c1a, c1b]).map (·.daily_change_percent) =
      some none ∧
    c1b.close ≠ 0 := by
  refine ⟨?_, ?_, by norm_num [c1b]⟩ <;>
    norm_num [CurrencyDataProcessor.calculate_metrics, c1a, c1b, pyRoundOpt]

/-- Example point (the spec's worked example) for the C1 witness. -/
def w1a : TimeSeriesData := ⟨"2025-01-02", 42500, 42600, 41700, 42500, 1000⟩

/-- Second example point for the C1 witness. -/
def w1b : TimeSeriesData := ⟨"2025-01-01", 41800, 41900, 41500, 41800, 900⟩

/-- The metrics computed on the C1 witness series. -/
def w1m : CalculatedMetrics :=
  (CurrencyDataProcessor.calculate_metrics [w1a, w1b]).getD default

theorem pyRound2_percent_example : pyRound2 (350/209) = 167/100 := by
  unfold pyRound2 roundHalfEven
  have h1 : (350/209 : ℚ) * 100 = 35000/209 := by norm_num
  have h2 : ratFloor (35000/209) = 167 := by
    unfold ratFloor
    have hn : (35000/209 : ℚ).num = 35000 := by norm_num
    have hd : (35000/209 : ℚ).den = 209 := by norm_num
    rw [hn, hd]
    decide
  rw [h1, h2]
  rw [if_pos (by norm_num)]
  norm_num

theorem daily_change_reporting_witness :
    CurrencyDataProcessor.calculate_metrics [w1a, w1b] = some w1m ∧
    w1m.daily_change =
      (if w1a.close - w1b.close = 0 then none
       else some (pyRound2 (w1a.close - w1b.close))) ∧
    w1m.daily_change_percent =
      (if w1b.close = 0 ∨ w1a.close - w1b.close = 0 then none
       else some (pyRound2 ((w1a.close - w1b.close) / w1b.close * 100))) ∧
    w1m.daily_change = some 700 ∧
    w1m.daily_change_percent = some (167/100) := by
  have h : CurrencyDataProcessor.calculate_metrics [w1a, w1b] = some w1m := rfl
  have happ := daily_change_reporting.1 w1a w1b [] w1m h
  refine ⟨h, happ.1, happ.2, ?_, ?_⟩
  · rw [happ.1]
    have hd : w1a.close - w1b.close = 700 := by norm_num [w1a, w1b]
    rw [hd, if_neg (by norm_num)]
    have h700 : pyRound2 700 = 700 := by
      have := pyRound2_intCast 700
      push_cast at this
      exact this
    rw [h700]
  · rw [happ.2]
    rw [if_neg (by norm_num [w1a, w1b])]
    have hv : (w1a.close - w1b.close) / w1b.close * 100 = 350/209 := by
      norm_num [w1a, w1b]
    rw [hv, pyRound2_percent_example]

/-- Weekly/monthly window aggregate over the first `n` points: the average
close of the window. -/
def windowAvgClose (n : ℕ) (l : List TimeSeriesData) : Option ℚ :=
  listAvg ((l.take n).map (·.close))

/-- Window aggregate over the first `n` points: the maximum high. -/
def windowMaxHigh (n : ℕ) (l : List TimeSeriesData) : Option ℚ :=
  listMax ((l.take n).map (·.high))

/-- Window aggregate over the first `n` points: the minimum low. -/
def windowMinLow (n : ℕ) (l : List TimeSeriesData) : Option ℚ :=
  listMin ((l.take n).map (·.low))

/-- C8: the weekly (n = 7) and monthly (n = 30) statistics of
`calculate_metrics` are the window aggregates over the first `n` points of
the series; each window depends only on those points, uses all points when
the series is shorter than `n` (no padding), is defined (no error) for every
nonempty series, and both windows independently anchor at the head. -/
theorem windowed_stats_spec :
    (∀ (a : TimeSeriesData) (rest : List TimeSeriesData) (m : CalculatedMetrics),
        CurrencyDataProcessor.calculate_metrics (a :: rest) = some m →
        m.weekly_avg = pyRoundOpt (windowAvgClose 7 (a :: rest)) ∧
        m.weekly_high = pyRoundOpt (windowMaxHigh 7 (a :: rest)) ∧
        m.weekly_low = pyRoundOpt (windowMinLow 7 (a :: rest)) ∧
        m.monthly_avg = pyRoundOpt (windowAvgClose 30 (a :: rest)) ∧
        m.monthly_high = pyRoundOpt (windowMaxHigh 30 (a :: rest)) ∧
        m.monthly_low = pyRoundOpt (windowMinLow 30 (a :: rest))) ∧
    (∀ (n : ℕ) (l : List TimeSeriesData),
        windowAvgClose n l = windowAvgClose n (l.take n) ∧
        windowMaxHigh n l = windowMaxHigh n (l.take n) ∧
        windowMinLow n l = windowMinLow n (l.take n)) ∧
    (∀ (n : ℕ) (l : List TimeSeriesData), l.length ≤ n →
        windowAvgClose n l = listAvg (l.map (·.close)) ∧
        windowMaxHigh n l = listMax (l.map (·.high)) ∧
        windowMinLow n l = listMin (l.map (·.low))) ∧
    (∀ (n : ℕ) (a : TimeSeriesData) (rest : List TimeSeriesData), 0 < n →
        (windowAvgClose n (a :: rest)).isSome = true ∧
        (windowMaxHigh n (a :: rest)).isSome = true ∧
        (windowMinLow n (a :: rest)).isSome = true) ∧
    (∀ l : List TimeSeriesData, l ≠ [] →
        (CurrencyDataProcessor.calculate_metrics l).isSome = true) := by
  refine ⟨?_, ?_, ?_, ?_, ?_⟩
  · intro a rest m h
    unfold CurrencyDataProcessor.calculate_metrics at h
    rw [Option.some.injEq] at h
    subst h
    exact ⟨rfl, rfl, rfl, rfl, rfl, rfl⟩
  · intro n l
    have ht : (l.take n).take n = l.take n := by rw [List.take_take, min_self]
    unfold windowAvgClose windowMaxHigh windowMinLow
    rw [ht]
    exact ⟨rfl, rfl, rfl⟩
  · intro n l hlen
    have ht : l.take n = l := List.take_of_length_le hlen
    unfold windowAvgClose windowMaxHigh windowMinLow
    rw [ht]
    exact ⟨rfl, rfl, rfl⟩
  · intro n a rest hn
    obtain ⟨k, rfl⟩ : ∃ k, n = k + 1 := ⟨n - 1, by omega⟩
    unfold windowAvgClose windowMaxHigh windowMinLow
    rw [List.take_succ_cons]
    exact ⟨rfl, rfl, rfl⟩
  · intro l hl
    cases l with
    | nil => exact absurd rfl hl
    | cons a rest => rfl

/-- First example point for the C8 witness (3-point series). -/
def w8a : TimeSeriesData := ⟨"2025-01-03", 10, 20, 5, 15, 100⟩

/-- Second example point for the C8 witness. -/
def w8b : TimeSeriesData := ⟨"2025-01-02", 11, 22, 6, 16, 110⟩

/-- Third example point for the C8 witness. -/
def w8c : TimeSeriesData := ⟨"2025-01-01", 12, 24, 7, 17, 120⟩

/-- The metrics computed on the C8 witness series. -/
def w8m : CalculatedMetrics :=
  (CurrencyDataProcessor.calculate_metrics [w8a, w8b, w8c]).getD default

theorem windowed_stats_spec_witness :
    (w8m.weekly_avg = pyRoundOpt (windowAvgClose 7 [w8a, w8b, w8c]) ∧
      w8m.weekly_high = pyRoundOpt (windowMaxHigh 7 [w8a, w8b, w8c])) ∧
    windowAvgClose 7 [w8a, w8b, w8c] = listAvg ([w8a, w8b, w8c].map (·.close)) ∧
    (windowAvgClose 7 [w8a, w8b, w8c]).isSome = true ∧
    (CurrencyDataProcessor.calculate_metrics [w8a, w8b, w8c]).isSome = true :=
  ⟨⟨(windowed_stats_spec.1 w8a [w8b, w8c] w8m rfl).1,
    (windowed_stats_spec.1 w8a [w8b, w8c] w8m rfl).2.1⟩,
   (windowed_stats_spec.2.2.1 7 [w8a, w8b, w8c] (by decide)).1,
   (windowed_stats_spec.2.2.2.1 7 w8a [w8b, w8c] (by decide)).1,
   windowed_stats_spec.2.2.2.2 [w8a, w8b, w8c] (by decide)⟩

/-! ## Claim C6 (range queries) -/

/-- C6: under the schema invariant, `get_by_date_range` returns exactly the
stored points of the instrument whose timestamps lie in the inclusive
window, in strictly ascending timestamp order, never a point of another
instrument, and the empty list (not an error) when nothing matches. -/
theorem get_range_spec :
    ∀ (s : List PriceRow) (cid : ℕ) (a b : ℤ), store_wf s → a ≤ b →
      (∀ r ∈ CryptoPriceRepository.get_by_date_range s cid a b,
          r.currency_id = cid ∧ a ≤ r.timestamp ∧ r.timestamp ≤ b) ∧
      List.Pairwise (fun x y => x.timestamp < y.timestamp)
        (CryptoPriceRepository.get_by_date_range s cid a b) ∧
      (∀ r, r ∈ CryptoPriceRepository.get_by_date_range s cid a b ↔
          r ∈ s ∧ r.currency_id = cid ∧ a ≤ r.timestamp ∧ r.timestamp ≤ b) ∧
      ((∀ r ∈ s, ¬(r.currency_id = cid ∧ a ≤ r.timestamp ∧ r.timestamp ≤ b)) →
          CryptoPriceRepository.get_by_date_range s cid a b = []) := by
  intro s cid a b hwf _hab
  have hperm : List.Perm (CryptoPriceRepository.get_by_date_range s cid a b)
      (s.filter (inRange cid a b)) := List.perm_insertionSort tsAsc _
  have hmem : ∀ r, r ∈ CryptoPriceRepository.get_by_date_range s cid a b ↔
      r ∈ s ∧ r.currency_id = cid ∧ a ≤ r.timestamp ∧ r.timestamp ≤ b := by
    intro r
    rw [hperm.mem_iff, List.mem_filter]
    unfold inRange
    rw [decide_eq_true_iff]
  have hscope : ∀ r ∈ CryptoPriceRepository.get_by_date_range s cid a b,
      r.currency_id = cid ∧ a ≤ r.timestamp ∧ r.timestamp ≤ b :=
    fun r hr => ((hmem r).mp hr).2
  refine ⟨hscope, ?_, hmem, ?_⟩
  · have hsort : List.Sorted tsAsc (CryptoPriceRepository.get_by_date_range s cid a b) :=
      List.sorted_insertionSort tsAsc _
    have hkfil : List.Pairwise
        (fun x y : PriceRow => ¬(x.currency_id = y.currency_id ∧ x.timestamp = y.timestamp))
        (s.filter (inRange cid a b)) := hwf.sublist (List.filter_sublist s)
    have hkres := (hperm.pairwise_iff
      (fun hxy hc => hxy ⟨hc.1.symm, hc.2.symm⟩)).mpr hkfil
    refine List.Pairwise.imp_of_mem ?_ (hsort.and hkres)
    intro x y hx hy hr
    have hcx := (hscope x hx).1
    have hcy := (hscope y hy).1
    exact lt_of_le_of_ne hr.1 fun hts => hr.2 ⟨hcx.trans hcy.symm, hts⟩
  · intro hnone
    refine List.eq_nil_iff_forall_not_mem.mpr ?_
    intro r hr
    have h2 := (hmem r).mp hr
    exact hnone r h2.1 h2.2

/-- Example rows for the C6 witness: two rows of instrument 1 (out of
timestamp order) and one of instrument 2. -/
def w6r1 : PriceRow := ⟨1, 3, 1, 2, 3, 4, 5⟩

/-- Second example row for the C6 witness. -/
def w6r2 : PriceRow := ⟨1, 1, 6, 7, 8, 9, 10⟩

/-- Third example row (other instrument) for the C6 witness. -/
def w6r3 : PriceRow := ⟨2, 2, 11, 12, 13, 14, 15⟩

theorem get_range_spec_witness :
    List.Pairwise (fun x y => x.timestamp < y.timestamp)
      (CryptoPriceRepository.get_by_date_range [w6r1, w6r2, w6r3] 1 0 5) ∧
    (w6r2 ∈ CryptoPriceRepository.get_by_date_range [w6r1, w6r2, w6r3] 1 0 5 ↔
      w6r2 ∈ [w6r1, w6r2, w6r3] ∧ w6r2.currency_id = 1 ∧
        0 ≤ w6r2.timestamp ∧ w6r2.timestamp ≤ 5) ∧
    (w6r3 ∈ CryptoPriceRepository.get_by_date_range [w6r1, w6r2, w6r3] 1 0 5 ↔
      w6r3 ∈ [w6r1, w6r2, w6r3] ∧ w6r3.currency_id = 1 ∧
        0 ≤ w6r3.timestamp ∧ w6r3.timestamp ≤ 5) := by
  have happ := get_range_spec [w6r1, w6r2, w6r3] 1 0 5
    (by simp [store_wf, List.pairwise_cons, w6r1, w6r2, w6r3]) (by norm_num)
  exact ⟨happ.2.1, happ.2.2.1 w6r2, happ.2.2.1 w6r3⟩

/-! ## Claim C10 (response truncation) -/

/-- C10: whenever `process_response` succeeds, `recent_data` is the 10-point
descending-sorted head of the parsed series — at most 10 points, sorted
descending by date regardless of the input ordering, each at least as
recent as every point that was cut off — and the seeder's bulk-insert batch
built from it therefore never exceeds 10 records. -/
theorem process_response_recent_data_spec :
    ∀ (raw : RawResponse) (resp : CurrencyResponse),
      CurrencyDataProcessor.process_response raw = some resp →
      resp.recent_data.length ≤ 10 ∧
      resp.recent_data =
        (CurrencyDataProcessor.parse_time_series raw.timeSeries
          (CurrencyDataProcessor.parse_metadata raw.metaData).market_code).take 10 ∧
      List.Pairwise dateDesc resp.recent_data ∧
      (∀ x ∈ resp.recent_data,
        ∀ y ∈ (CurrencyDataProcessor.parse_time_series raw.timeSeries
          (CurrencyDataProcessor.parse_metadata raw.metaData).market_code).drop 10,
          pyStrLe y.date x.date = true) ∧
      (∀ (cid : ℕ) (decode : String → ℤ),
        (seed_price_records cid decode resp).length ≤ 10) := by
  intro raw resp h
  unfold CurrencyDataProcessor.process_response at h
  rcases Option.map_eq_some'.mp h with ⟨m, _hm, hresp⟩
  subst hresp
  have hsorted : List.Sorted dateDesc
      (CurrencyDataProcessor.parse_time_series raw.timeSeries
        (CurrencyDataProcessor.parse_metadata raw.metaData).market_code) := by
    unfold CurrencyDataProcessor.parse_time_series
    exact List.sorted_insertionSort dateDesc _
  refine ⟨List.length_take_le 10 _, rfl, ?_, ?_, ?_⟩
  · exact hsorted.sublist (List.take_sublist 10 _)
  · intro x hx y hy
    have hsplit : List.Pairwise dateDesc
        ((CurrencyDataProcessor.parse_time_series raw.timeSeries
            (CurrencyDataProcessor.parse_metadata raw.metaData).market_code).take 10 ++
          (CurrencyDataProcessor.parse_time_series raw.timeSeries
            (CurrencyDataProcessor.parse_metadata raw.metaData).market_code).drop 10) := by
      rw [List.take_append_drop]
      exact hsorted
    exact (List.pairwise_append.mp hsplit).2.2 x hx y hy
  · intro cid decode
    unfold seed_price_records
    rw [List.length_map]
    exact List.length_take_le 10 _

/-- Example raw response (entries deliberately in ascending date order) for
the C10 witness. -/
def w10raw : RawResponse :=
  ⟨default,
   [("2025-01-01", ⟨some 1, some 2, some 3, some 4, some 5⟩),
    ("2025-01-02", ⟨some 6, some 7, some 8, some 9, some 10⟩)]⟩

/-- The processed response of the C10 witness input. -/
def w10resp : CurrencyResponse :=
  (CurrencyDataProcessor.process_response w10raw).getD default

theorem process_response_recent_data_spec_witness :
    w10resp.recent_data.length ≤ 10 ∧
    List.Pairwise dateDesc w10resp.recent_data ∧
    (seed_price_records 1 (fun _ => 0) w10resp).length ≤ 10 ∧
    w10resp.recent_data.map (·.date) = ["2025-01-02", "2025-01-01"] :=
  ⟨(process_response_recent_data_spec w10raw w10resp rfl).1,
   (process_response_recent_data_spec w10raw w10resp rfl).2.2.1,
   (process_response_recent_data_spec w10raw w10resp rfl).2.2.2.2 1 (fun _ => 0),
   by decide⟩
